import Mathlib

/-!
Verification of the backup-code recovery subsystem of the two-factor plugin
(source file packages/better-auth/src/plugins/two-factor/backup-codes/index.ts).

The subsystem generates a batch of one-time recovery codes, persists them as a
single encrypted blob on the TwoFactorRecord, and consumes a single code per
successful verification.  JavaScript strings that flow through the pipeline are
modelled by the inductive type SVal, which distinguishes the string shapes the
code inspects: the JSON text of an array of strings, other well-formed JSON
text, an arbitrary non-JSON literal, and a ciphertext produced by the symmetric
encryption primitive.  Fallible operations (decryption, JSON parsing) return
Except values; a thrown JavaScript exception is the error case.
-/

namespace BackupCodes

/-- Model of the JavaScript string values that flow through the subsystem.
raw is an arbitrary literal that is not valid JSON, jsonArr is the JSON text of
an array of strings (the image of JSON.stringify on a code list), jsonOther is
valid JSON text that is not an array of strings, and enc key data is the
ciphertext returned by symmetricEncrypt with the given key over data. -/
inductive SVal where
  | raw : String → SVal
  | jsonArr : List String → SVal
  | jsonOther : SVal
  | enc : String → SVal → SVal
  deriving DecidableEq, Repr

/-- Error outcomes of the endpoint handlers.  backupNotEnabled stands for the
BAD_REQUEST errors with the BACKUP_CODES_NOT_ENABLED message (and the literal
message of viewBackupCodes), invalidBackupCode for UNAUTHORIZED with
INVALID_BACKUP_CODE, twoFactorNotEnabled for BAD_REQUEST with
TWO_FACTOR_NOT_ENABLED, passwordError for a propagated checkPassword failure,
and internalError for an uncaught exception thrown by a crypto or JSON
primitive inside the handler. -/
inductive ApiError where
  | backupNotEnabled
  | invalidBackupCode
  | twoFactorNotEnabled
  | passwordError
  | internalError
  deriving DecidableEq, Repr

/-- Modelled from the spec: the symmetric authenticated encryption primitive
symmetricEncrypt of the crypto module, which is not under src.  Encryption with
a key wraps the data into an opaque ciphertext string. -/
def symmetricEncrypt (key : String) (data : SVal) : SVal :=
  SVal.enc key data

/-- Modelled from the spec: symmetricDecrypt of the crypto module, which is not
under src.  Decryption must fail, by throwing, on tamper, on a wrong key, or on
input that is not a ciphertext at all. -/
def symmetricDecrypt (key : String) (data : SVal) : Except Unit SVal :=
  match data with
  | SVal.enc k d => if k = key then Except.ok d else Except.error ()
  | _ => Except.error ()

/-- Modelled from the spec: JSON.parse followed by z.array(z.string()).safeParse
as performed inside getBackupCodes.  JSON text of a string array parses to the
array, other valid JSON parses but fails the schema check (null result), and
non-JSON input (a raw literal or an opaque ciphertext string) makes JSON.parse
throw. -/
def parseStringArray (s : SVal) : Except Unit (Option (List String)) :=
  match s with
  | SVal.jsonArr codes => Except.ok (some codes)
  | SVal.jsonOther => Except.ok none
  | _ => Except.error ()

/-- Embedding of getBackupCodes: symmetricDecrypt with the given key (the
TextEncoder and TextDecoder round trip is the identity on strings), then
JSON.parse and the zod string-array schema check; a schema failure yields null
and a decrypt or parse throw propagates. -/
def getBackupCodes (backupCodes : SVal) (key : String) :
    Except Unit (Option (List String)) :=
  match symmetricDecrypt key backupCodes with
  | Except.error e => Except.error e
  | Except.ok secret => parseStringArray secret

/-- Result shape of verifyBackupCode: noCodes is the return value with status
false and updated null when the stored blob did not decode to a code list, and
checked carries the includes test and the filtered remainder otherwise. -/
inductive VerifyResult where
  | noCodes
  | checked (status : Bool) (updated : List String)
  deriving DecidableEq, Repr

/-- Embedding of verifyBackupCode: decode the blob via getBackupCodes; when
decoding yields null return status false with updated null, otherwise return
whether the code list includes the presented code together with the list
filtered to the entries different from the presented code. -/
def verifyBackupCode (backupCodes : SVal) (code : String) (key : String) :
    Except Unit VerifyResult :=
  match getBackupCodes backupCodes key with
  | Except.error e => Except.error e
  | Except.ok none => Except.ok VerifyResult.noCodes
  | Except.ok (some codes) =>
      Except.ok (VerifyResult.checked (codes.contains code)
        (codes.filter (fun c => c != code)))

/-- Embedding of the per-code reformatting step inside generateBackupCodesFn:
the template string built from code.slice(0, 5), a dash, and code.slice(5). -/
def formatBackupCode (code : String) : String :=
  code.take 5 ++ "-" ++ code.drop 5

/-- Embedding of generateBackupCodesFn.  The draws argument lists the
successive outputs of generateRandomString, modelled from the spec because the
crypto/random module is not under src: each draw is a fresh random alphanumeric
string of the configured length.  The function maps the reformatting step over
the draws; the batch size is the number of draws (the amount option). -/
def generateBackupCodesFn (draws : List String) : List String :=
  draws.map formatBackupCode

/-- Embedding of the exported generateBackupCodes with the default generator:
produce the formatted batch and pair it with the value-level encryption of its
JSON serialization under the application secret. -/
def generateBackupCodes (secret : String) (draws : List String) :
    List String × SVal :=
  let backupCodes := generateBackupCodesFn draws
  (backupCodes, symmetricEncrypt secret (SVal.jsonArr backupCodes))

/-- Storage strategy from the storeBackupCodes option: plain covers both the
explicit plain setting and the default absent option (the final passthrough
branch of the source), encrypted is the storage-level symmetric encryption
under the application secret, and custom carries a caller-supplied pair of
callbacks treated as a black box (modelled as total functions on SVal). -/
inductive StoreStrategy where
  | plain
  | encrypted
  | custom (encrypt : SVal → SVal) (decrypt : SVal → SVal)

/-- Embedding of the local storeBackupCodes helper of backupCode2fa. -/
def storeBackupCodes (strategy : StoreStrategy) (secret : String)
    (backupCodes : SVal) : SVal :=
  match strategy with
  | StoreStrategy.encrypted => symmetricEncrypt secret backupCodes
  | StoreStrategy.custom e _ => e backupCodes
  | StoreStrategy.plain => backupCodes

/-- Embedding of the local decryptBackupCodes helper of backupCode2fa.  Under
the encrypted strategy a symmetricDecrypt failure throws and propagates. -/
def decryptBackupCodes (strategy : StoreStrategy) (secret : String)
    (backupCodes : SVal) : Except Unit SVal :=
  match strategy with
  | StoreStrategy.encrypted => symmetricDecrypt secret backupCodes
  | StoreStrategy.custom _ d => Except.ok (d backupCodes)
  | StoreStrategy.plain => Except.ok backupCodes

/-- Embedding of the verifyBackupCode endpoint handler.  The record argument is
the backupCodes blob of the TwoFactorRecord found for the session user, or none
when no record exists; the session machinery around verifyTwoFactor is out of
scope and assumed to have produced the user.  The result pairs the outcome of
the call (success models the session hand-off) with the stored blob after the
call: every throw happens before the adapter update, so the error branches
return the record unchanged, and the success branch persists the value-level
encryption of the JSON serialization of the remainder, with no storage-level
re-encoding. -/
def verifyBackupCodeHandler (strategy : StoreStrategy) (secret : String)
    (record : Option SVal) (code : String) :
    Except ApiError Unit × Option SVal :=
  match record with
  | none => (Except.error ApiError.backupNotEnabled, none)
  | some blob =>
    match decryptBackupCodes strategy secret blob with
    | Except.error _ => (Except.error ApiError.internalError, some blob)
    | Except.ok decrypted =>
      match verifyBackupCode decrypted code secret with
      | Except.error _ => (Except.error ApiError.internalError, some blob)
      | Except.ok VerifyResult.noCodes =>
          (Except.error ApiError.invalidBackupCode, some blob)
      | Except.ok (VerifyResult.checked status updated) =>
          if status then
            (Except.ok (), some (symmetricEncrypt secret (SVal.jsonArr updated)))
          else
            (Except.error ApiError.invalidBackupCode, some blob)

/-- Embedding of the generateBackupCodes endpoint handler.  The booleans model
the twoFactorEnabled flag of the session user and the outcome of the delegated
checkPassword call; draws models the randomness consumed by the generator.  On
success the plaintext batch is returned once and the record blob, when a record
row exists for the user, is overwritten wholesale with the doubly encoded
batch. -/
def generateBackupCodesHandler (strategy : StoreStrategy) (secret : String)
    (twoFactorEnabled passwordOk : Bool) (record : Option SVal)
    (draws : List String) : Except ApiError (List String) × Option SVal :=
  if twoFactorEnabled = false then
    (Except.error ApiError.twoFactorNotEnabled, record)
  else if passwordOk = false then
    (Except.error ApiError.passwordError, record)
  else
    let generated := generateBackupCodes secret draws
    let stored := storeBackupCodes strategy secret generated.2
    match record with
    | some _ => (Except.ok generated.1, some stored)
    | none => (Except.ok generated.1, none)

/-- Embedding of the viewBackupCodes endpoint handler.  The handler fetches the
record for the target user, runs getBackupCodes on the raw stored blob with the
application secret (with no storage-level decryption first), throws the
not-enabled error when the record is absent or that decoding yields null, and
otherwise responds with decryptBackupCodes applied to the stored blob.  The
response payload is therefore an SVal, the string the source places in the
backupCodes field of the JSON response. -/
def viewBackupCodesHandler (strategy : StoreStrategy) (secret : String)
    (record : Option SVal) : Except ApiError SVal :=
  match record with
  | none => Except.error ApiError.backupNotEnabled
  | some blob =>
    match getBackupCodes blob secret with
    | Except.error _ => Except.error ApiError.internalError
    | Except.ok none => Except.error ApiError.backupNotEnabled
    | Except.ok (some _) =>
      match decryptBackupCodes strategy secret blob with
      | Except.error _ => Except.error ApiError.internalError
      | Except.ok decryptedBackupCodes => Except.ok decryptedBackupCodes

/-- Symmetry assumption on a storage strategy: trivial for plain and encrypted,
and the round-trip law for a caller-supplied custom pair, which the spec makes
the caller responsible for. -/
def StrategySymmetric : StoreStrategy → Prop
  | StoreStrategy.custom e d => ∀ s, d (e s) = s
  | _ => True

end BackupCodes

namespace BackupCodes

/-- Helper: filtering the entries different from a code removes exactly the
occurrences of that code, so the length drops by the multiplicity. -/
theorem length_filter_bne (code : String) (l : List String) :
    (l.filter (fun c => c != code)).length = l.length - l.count code := by
  induction l with
  | nil => rfl
  | cons a t ih =>
    have hcl := List.count_le_length code t
    rcases eq_or_ne a code with h | h
    · subst h
      simp [List.filter_cons, List.count_cons, ih]
    · simp [List.filter_cons, List.count_cons, h, ih, bne_iff_ne]
      omega

/-- Helper: the filtered remainder never contains the presented code. -/
theorem not_mem_filter_bne (code : String) (l : List String) :
    code ∉ l.filter (fun c => c != code) := by
  simp [List.mem_filter]

/-- Helper: full evaluation of the verify endpoint under the plain strategy on
a record holding a well-formed value-encrypted batch.  A member code succeeds
and persists the filtered remainder wrapped only in the value-level layer; a
non-member code fails with the invalid-code error and keeps the blob. -/
theorem verify_plain_decoded (secret code : String) (codes : List String) :
    verifyBackupCodeHandler StoreStrategy.plain secret
        (some (SVal.enc secret (SVal.jsonArr codes))) code
      = if code ∈ codes
        then (Except.ok (), some (SVal.enc secret
          (SVal.jsonArr (codes.filter (fun c => c != code)))))
        else (Except.error ApiError.invalidBackupCode,
          some (SVal.enc secret (SVal.jsonArr codes))) := by
  by_cases h : code ∈ codes <;>
    simp [verifyBackupCodeHandler, decryptBackupCodes, verifyBackupCode,
      getBackupCodes, symmetricDecrypt, parseStringArray, symmetricEncrypt, h]

/-- Helper: character-level description of the reformatting step. -/
theorem data_formatBackupCode (a : String) :
    (formatBackupCode a).data = a.data.take 5 ++ '-' :: a.data.drop 5 := by
  unfold formatBackupCode
  rw [String.append_assoc, String.data_append, String.data_append,
    String.data_take, String.data_drop]
  rfl

/-- Helper: the reformatting step is injective on draws of equal length, so
distinct equal-length draws give distinct formatted codes. -/
theorem formatBackupCode_inj_of_length_eq {a b : String} (hl : a.length = b.length)
    (h : formatBackupCode a = formatBackupCode b) : a = b := by
  have hd := congrArg String.data h
  rw [data_formatBackupCode, data_formatBackupCode] at hd
  have hdl : a.data.length = b.data.length := hl
  have hlent : (List.take 5 a.data).length = (List.take 5 b.data).length := by
    simp [List.length_take, hdl]
  obtain ⟨h3, h4⟩ := List.append_inj hd hlent
  have h5 : List.drop 5 a.data = List.drop 5 b.data := by
    simpa using h4
  apply String.ext
  calc a.data = List.take 5 a.data ++ List.drop 5 a.data :=
        (List.take_append_drop 5 a.data).symm
    _ = List.take 5 b.data ++ List.drop 5 b.data := by rw [h3, h5]
    _ = b.data := List.take_append_drop 5 b.data

/-- C1: evaluation of the code at the failing input of the claim.  Under the
encrypted storage strategy, a successful verification persists the remainder
wrapped only in the value-level layer (the handler calls symmetricEncrypt and
skips storeBackupCodes), so the next verification on the written blob cannot
decode it: the storage-level decrypt peels the single layer, the value-level
decrypt then throws on plain JSON text, and the call ends in a propagated
internal error instead of reaching the match step.  This contradicts the claim
that the Persist step re-encodes through both layers and that the written blob
decodes again for every active strategy. -/
theorem C1_persist_skips_storage_layer :
    verifyBackupCodeHandler StoreStrategy.encrypted "s"
        (some (storeBackupCodes StoreStrategy.encrypted "s"
          (symmetricEncrypt "s" (SVal.jsonArr ["aaaaa-bbbbb", "ccccc-ddddd"]))))
        "aaaaa-bbbbb"
      = (Except.ok (), some (SVal.enc "s" (SVal.jsonArr ["ccccc-ddddd"]))) ∧
    (verifyBackupCodeHandler StoreStrategy.encrypted "s"
        (some (SVal.enc "s" (SVal.jsonArr ["ccccc-ddddd"]))) "ccccc-ddddd").1
      = Except.error ApiError.internalError := by
  constructor <;> rfl

/-- C2: single consumption under the default plain storage configuration.  For
every stored batch of 10 pairwise distinct codes, verifying with code number 3
succeeds and persists a remainder of exactly 9 entries that omits the presented
code and keeps the relative order of the others (it is a sublist of the batch),
and a second verification with the same code fails with the invalid-code
error. -/
theorem C2_single_consumption (secret c : String) (batch : List String)
    (hlen : batch.length = 10) (hnd : batch.Nodup) (hc : batch[2]? = some c) :
    ∃ rem,
      verifyBackupCodeHandler StoreStrategy.plain secret
          (some (SVal.enc secret (SVal.jsonArr batch))) c
        = (Except.ok (), some (SVal.enc secret (SVal.jsonArr rem))) ∧
      rem.length = 9 ∧ c ∉ rem ∧ List.Sublist rem batch ∧
      (verifyBackupCodeHandler StoreStrategy.plain secret
          (some (SVal.enc secret (SVal.jsonArr rem))) c).1
        = Except.error ApiError.invalidBackupCode := by
  have hmem : c ∈ batch := by
    obtain ⟨hlt, he⟩ := List.getElem?_eq_some_iff.mp hc
    exact he ▸ List.getElem_mem hlt
  refine ⟨batch.filter (fun x => x != c), ?_, ?_, not_mem_filter_bne c batch,
    List.filter_sublist batch, ?_⟩
  · rw [verify_plain_decoded, if_pos hmem]
  · rw [length_filter_bne, hlen, List.count_eq_one_of_mem hnd hmem]
  · rw [verify_plain_decoded, if_neg (not_mem_filter_bne c batch)]

/-- C2 witness: the single-consumption theorem applied to a concrete batch of
10 distinct codes with its third code. -/
theorem C2_witness :
    ∃ rem,
      verifyBackupCodeHandler StoreStrategy.plain "s"
          (some (SVal.enc "s" (SVal.jsonArr
            ["c0", "c1", "c2", "c3", "c4", "c5", "c6", "c7", "c8", "c9"]))) "c2"
        = (Except.ok (), some (SVal.enc "s" (SVal.jsonArr rem))) ∧
      rem.length = 9 ∧ "c2" ∉ rem ∧
      List.Sublist rem ["c0", "c1", "c2", "c3", "c4", "c5", "c6", "c7", "c8", "c9"] ∧
      (verifyBackupCodeHandler StoreStrategy.plain "s"
          (some (SVal.enc "s" (SVal.jsonArr rem))) "c2").1
        = Except.error ApiError.invalidBackupCode :=
  C2_single_consumption "s" "c2"
    ["c0", "c1", "c2", "c3", "c4", "c5", "c6", "c7", "c8", "c9"]
    (by decide) (by decide) (by decide)

/-- C3 counterexample: a record whose blob decrypts to JSON text that is not a
list of code strings makes verification fail with the invalid-code error, not
with the not-enabled error the claim requires. -/
theorem C3_counterexample :
    verifyBackupCodeHandler StoreStrategy.plain "s"
        (some (SVal.enc "s" SVal.jsonOther)) "c"
      = (Except.error ApiError.invalidBackupCode, some (SVal.enc "s" SVal.jsonOther)) ∧
    ApiError.invalidBackupCode ≠ ApiError.backupNotEnabled :=
  ⟨rfl, by decide⟩

/-- C3 as amended: whenever the record exists and its blob passes the storage
layer but decodes to null (the decrypted content is not a well-formed list of
code strings), verification fails with the invalid-code error, merged with the
no-match case; the not-enabled error is reserved for an absent record. -/
theorem C3_amended (strategy : StoreStrategy) (secret code : String) (blob d : SVal)
    (hdec : decryptBackupCodes strategy secret blob = Except.ok d)
    (hparse : getBackupCodes d secret = Except.ok none) :
    verifyBackupCodeHandler strategy secret (some blob) code
      = (Except.error ApiError.invalidBackupCode, some blob) := by
  simp [verifyBackupCodeHandler, hdec, verifyBackupCode, hparse]

/-- C3 witness: the amended theorem applied to a concrete undecodable blob. -/
theorem C3_witness :
    verifyBackupCodeHandler StoreStrategy.plain "s"
        (some (SVal.enc "s" SVal.jsonOther)) "c"
      = (Except.error ApiError.invalidBackupCode, some (SVal.enc "s" SVal.jsonOther)) :=
  C3_amended StoreStrategy.plain "s" "c" (SVal.enc "s" SVal.jsonOther)
    (SVal.enc "s" SVal.jsonOther) rfl rfl

/-- C4: evaluation of the code at the failing input of the claim.  Under the
plain strategy, on a record that exists and decodes, the inspect endpoint
responds with the storage-level decryption of the stored blob, which is still
the value-level ciphertext and not the plaintext batch of code strings the
claim requires. -/
theorem C4_view_returns_encrypted_blob :
    viewBackupCodesHandler StoreStrategy.plain "s"
        (some (storeBackupCodes StoreStrategy.plain "s"
          (symmetricEncrypt "s" (SVal.jsonArr ["aaaaa-bbbbb"]))))
      = Except.ok (SVal.enc "s" (SVal.jsonArr ["aaaaa-bbbbb"])) ∧
    SVal.enc "s" (SVal.jsonArr ["aaaaa-bbbbb"]) ≠ SVal.jsonArr ["aaaaa-bbbbb"] :=
  ⟨rfl, by decide⟩

/-- C5: round trip.  For every storage strategy (with the symmetry law the spec
makes the caller responsible for in the custom case) and every non-empty batch,
the fetch-decode path applied to the doubly encoded batch produced at
generation time recovers the identical batch in order. -/
theorem C5_roundtrip (strategy : StoreStrategy) (secret : String)
    (batch : List String) (hsym : StrategySymmetric strategy) (_hne : batch ≠ []) :
    ∃ d, decryptBackupCodes strategy secret
          (storeBackupCodes strategy secret
            (symmetricEncrypt secret (SVal.jsonArr batch))) = Except.ok d ∧
      getBackupCodes d secret = Except.ok (some batch) := by
  cases strategy with
  | plain =>
    exact ⟨symmetricEncrypt secret (SVal.jsonArr batch), rfl,
      by simp [getBackupCodes, symmetricEncrypt, symmetricDecrypt, parseStringArray]⟩
  | encrypted =>
    refine ⟨symmetricEncrypt secret (SVal.jsonArr batch), ?_, ?_⟩ <;>
      simp [decryptBackupCodes, storeBackupCodes, symmetricEncrypt,
        symmetricDecrypt, getBackupCodes, parseStringArray]
  | custom e d =>
    have hs : ∀ s, d (e s) = s := hsym
    refine ⟨symmetricEncrypt secret (SVal.jsonArr batch), ?_, ?_⟩
    · simp [decryptBackupCodes, storeBackupCodes, hs]
    · simp [getBackupCodes, symmetricEncrypt, symmetricDecrypt, parseStringArray]

/-- C5 witness: the round-trip theorem applied to the plain strategy and a
concrete singleton batch. -/
theorem C5_witness :
    ∃ d, decryptBackupCodes StoreStrategy.plain "s"
          (storeBackupCodes StoreStrategy.plain "s"
            (symmetricEncrypt "s" (SVal.jsonArr ["x"]))) = Except.ok d ∧
      getBackupCodes d "s" = Except.ok (some ["x"]) :=
  C5_roundtrip StoreStrategy.plain "s" ["x"] trivial (by decide)

/-- C6 counterexample: the default generator applies no deduplication, so two
equal random draws produce two equal codes and the generated batch is not
pairwise distinct. -/
theorem C6_counterexample :
    ¬ (generateBackupCodesFn ["aaaaaaaaaa", "aaaaaaaaaa"]).Nodup := by
  decide

/-- C6 as amended: the generated codes are pairwise distinct provided the
underlying random draws are pairwise distinct; the reformatting step is
injective on draws of the common configured length, so distinctness of the
draws carries over to the batch but is not enforced by the generator. -/
theorem C6_amended (L : Nat) (draws : List String)
    (hnd : draws.Nodup) (hlen : ∀ d ∈ draws, d.length = L) :
    (generateBackupCodesFn draws).Nodup := by
  unfold generateBackupCodesFn
  refine List.Nodup.map_on ?_ hnd
  intro x hx y hy hxy
  exact formatBackupCode_inj_of_length_eq
    ((hlen x hx).trans (hlen y hy).symm) hxy

/-- C6 witness: the amended theorem applied to two distinct draws of the
default length 10. -/
theorem C6_witness :
    (generateBackupCodesFn ["aaaaaaaaaa", "bbbbbbbbbb"]).Nodup :=
  C6_amended 10 ["aaaaaaaaaa", "bbbbbbbbbb"] (by decide) (by decide)

/-- C7: regeneration discards prior state.  Under the default plain storage
configuration, a successful regeneration overwrites the record with the fresh
batch B; afterwards every code outside B fails verification with the
invalid-code error (in particular every unconsumed code of a prior batch A not
in B), and every code of B verifies successfully. -/
theorem C7_regeneration_discards (secret : String) (old : SVal)
    (draws : List String) :
    ∃ B, generateBackupCodesHandler StoreStrategy.plain secret true true
          (some old) draws
        = (Except.ok B, some (SVal.enc secret (SVal.jsonArr B))) ∧
      B = generateBackupCodesFn draws ∧
      (∀ a, a ∉ B →
        (verifyBackupCodeHandler StoreStrategy.plain secret
            (some (SVal.enc secret (SVal.jsonArr B))) a).1
          = Except.error ApiError.invalidBackupCode) ∧
      (∀ b ∈ B, ∃ post, verifyBackupCodeHandler StoreStrategy.plain secret
            (some (SVal.enc secret (SVal.jsonArr B))) b = (Except.ok (), post)) := by
  refine ⟨generateBackupCodesFn draws, rfl, rfl, ?_, ?_⟩
  · intro a ha
    rw [verify_plain_decoded, if_neg ha]
  · intro b hb
    exact ⟨_, by rw [verify_plain_decoded, if_pos hb]⟩

/-- C7 witness: the regeneration theorem applied to a concrete prior record and
one concrete draw. -/
theorem C7_witness :
    ∃ B, generateBackupCodesHandler StoreStrategy.plain "s" true true
          (some SVal.jsonOther) ["aaaaaaaaaa"]
        = (Except.ok B, some (SVal.enc "s" (SVal.jsonArr B))) ∧
      B = generateBackupCodesFn ["aaaaaaaaaa"] ∧
      (∀ a, a ∉ B →
        (verifyBackupCodeHandler StoreStrategy.plain "s"
            (some (SVal.enc "s" (SVal.jsonArr B))) a).1
          = Except.error ApiError.invalidBackupCode) ∧
      (∀ b ∈ B, ∃ post, verifyBackupCodeHandler StoreStrategy.plain "s"
            (some (SVal.enc "s" (SVal.jsonArr B))) b = (Except.ok (), post)) :=
  C7_regeneration_discards "s" SVal.jsonOther ["aaaaaaaaaa"]

/-- C8 counterexample: the generator splits a length-6 raw code at the fixed
offset 5, a 5-1 split, so the separator is not placed as the 3-3 split the
claim states: the raw code ab12cd is formatted to ab12c-d and not to
ab1-2cd. -/
theorem C8_counterexample :
    formatBackupCode "ab12cd" = "ab12c-d" ∧ formatBackupCode "ab12cd" ≠ "ab1-2cd" := by
  constructor <;> decide

/-- C8 as amended: with amount 3 and length 6 the generator formats the raw
draws by a 5-1 split (fixed offset 5) into exactly the listed forms, and
value-level encryption followed by decryption with a fixed 32-byte key returns
the identical three-element sequence in order. -/
theorem C8_amended_scenario :
    generateBackupCodesFn ["ab12cd", "EF34gh", "99zzYY"]
        = ["ab12c-d", "EF34g-h", "99zzY-Y"] ∧
    getBackupCodes (symmetricEncrypt "00112233445566778899aabbccddeeff"
          (SVal.jsonArr ["ab12c-d", "EF34g-h", "99zzY-Y"]))
        "00112233445566778899aabbccddeeff"
      = Except.ok (some ["ab12c-d", "EF34g-h", "99zzY-Y"]) :=
  ⟨by decide, rfl⟩

/-- C9: every verification call that ends in a failure, of any kind, leaves the
stored blob unchanged; the write-back happens only on the success path after a
match. -/
theorem C9_failure_preserves_record (strategy : StoreStrategy) (secret : String)
    (record : Option SVal) (code : String) (e : ApiError)
    (h : (verifyBackupCodeHandler strategy secret record code).1
      = Except.error e) :
    (verifyBackupCodeHandler strategy secret record code).2 = record := by
  cases record with
  | none => rfl
  | some blob =>
    cases hd : decryptBackupCodes strategy secret blob with
    | error err => simp [verifyBackupCodeHandler, hd]
    | ok decrypted =>
      cases hv : verifyBackupCode decrypted code secret with
      | error err => simp [verifyBackupCodeHandler, hd, hv]
      | ok r =>
        cases r with
        | noCodes => simp [verifyBackupCodeHandler, hd, hv]
        | checked status updated =>
          cases status with
          | false => simp [verifyBackupCodeHandler, hd, hv]
          | true => simp [verifyBackupCodeHandler, hd, hv] at h

/-- C9 witness: the preservation theorem applied to the absent-record failure. -/
theorem C9_witness :
    (verifyBackupCodeHandler StoreStrategy.plain "s" none "c").2 = none :=
  C9_failure_preserves_record StoreStrategy.plain "s" none "c"
    ApiError.backupNotEnabled rfl

/-- C10: on a decoded batch the computed remainder is the filter keeping the
entries different from the presented code, so it drops every occurrence of the
presented code (the length shrinks by the full multiplicity) and never contains
the presented code. -/
theorem C10_remainder_removes_all (secret code : String) (batch : List String) :
    verifyBackupCode (SVal.enc secret (SVal.jsonArr batch)) code secret
      = Except.ok (VerifyResult.checked (batch.contains code)
          (batch.filter (fun c => c != code))) ∧
    (batch.filter (fun c => c != code)).length
      = batch.length - batch.count code ∧
    code ∉ batch.filter (fun c => c != code) :=
  ⟨by simp [verifyBackupCode, getBackupCodes, symmetricDecrypt, parseStringArray],
   length_filter_bne code batch, not_mem_filter_bne code batch⟩

end BackupCodes
